import Mathlib

/-
  Verification of the real-time data hub of putra456/SweepSmp against its
  specification.

  Shallow embedding of `src/assets/js/real-time-feed.js`
  (`class RealTimeFeedService`).  The service's mutable fields
  (`feeds`, `subscribers`, `buffer`, `reconnectAttempts`) are gathered in a
  `ServiceState` record; JavaScript `Map`s become insertion-ordered
  association lists and JavaScript `Set`s become insertion-ordered lists
  with tombstones (so that deletion during an in-progress `forEach`
  iteration behaves exactly as for a JS `Set`: deleted entries are skipped,
  entries added during iteration are appended and visited).

  Observable side effects are recorded explicitly:
  * `sent`    — every `ws.send` of a wire-level subscribe/unsubscribe action;
  * `pending` — reconnects scheduled via `setTimeout(connectFeed, interval)`;
  * subscriber-callback invocations and caught callback exceptions are
    returned by `notifySubscribers`/`handleMessage` as a `MsgOut` record
    (kept outside `ServiceState` so that a callback body cannot forge them).
  `console.log/warn/error` text is external I/O and is not part of the
  state; where a claim talks about a warning being emitted
  (`checkConnectionHealth`), the embedding returns the list of warned feed
  names alongside the state.  The `connections` map of the source is set
  and deleted but never read by any method, so it is omitted.

  Subscriber callbacks are opaque JavaScript functions; they are embedded
  as an environment `Nat → CbSpec` assigning each callback identity a state
  transformation (what the callback body does to the service, e.g. calling
  `subscribe`) and a flag saying whether it throws.  Feed handler bodies
  (`handleMarketMessage` …) only touch external collaborators
  (`window.multiMarketEngine`, DOM, notifications) and may throw; they are
  embedded by their throw behaviour `Msg → Bool`, which is all
  `handleMessage`'s control flow depends on.
-/

namespace RealTimeFeed

/-- `WebSocket.readyState` values. -/
inductive WsReadyState : Type
  | connecting : WsReadyState
  | opened : WsReadyState
  | closing : WsReadyState
  | closed : WsReadyState
deriving DecidableEq, Repr

/-- A feed configuration record as passed to `connectFeed`
(the `url` field is transport-specific and unused by the modelled logic). -/
structure FeedConfig : Type where
  name : String
  reconnectInterval : Nat
  maxReconnectAttempts : Nat
deriving DecidableEq, Repr

/-- A parsed JSON message.  The fields the service inspects (`channel`,
`type`, `timestamp`) are optional, as in JS where absent properties read as
`undefined`; `payload` stands for the remaining opaque content. -/
structure Msg : Type where
  channel : Option String
  mtype : Option String
  timestamp : Option Nat
  payload : Nat
deriving DecidableEq, Repr

/-- An entry of `this.feeds`: the transport handle (by its current
`readyState`, `none` when the `websocket` field is not set), the config,
and the status/stats fields. -/
structure Feed : Type where
  websocket : Option WsReadyState
  config : FeedConfig
  status : String
  lastMessage : Option Msg
  messageCount : Nat
deriving DecidableEq, Repr

/-- A wire-level action sent over a feed's websocket
(`ws.send(JSON.stringify)` with an `action` and a `channel` field). -/
structure WireMsg : Type where
  feed : String
  action : String
  channel : String
deriving DecidableEq, Repr

/-- The mutable state of `RealTimeFeedService`, plus the observable output
logs `sent` (wire actions sent) and `pending` (reconnects scheduled via
`setTimeout` and not yet run). -/
structure ServiceState : Type where
  feeds : List (String × Feed)
  subscribers : List (String × List (Nat × Bool))
  buffer : List (String × List Msg)
  reconnectAttempts : List (String × Nat)
  sent : List WireMsg
  pending : List FeedConfig
deriving DecidableEq, Repr

/-- The state of a freshly constructed service (all maps empty). -/
def emptyState : ServiceState := ⟨[], [], [], [], [], []⟩

/-! ### JavaScript `Map` operations (insertion-ordered association list) -/

/-- `Map.get` (first — and only — binding of the key). -/
def mGet {α : Type} : List (String × α) → String → Option α
  | [], _ => none
  | (k, v) :: rest, key => if k = key then some v else mGet rest key

/-- `Map.set`: replace in place when the key exists, else append. -/
def mSet {α : Type} : List (String × α) → String → α → List (String × α)
  | [], key, v => [(key, v)]
  | (k, w) :: rest, key, v =>
      if k = key then (k, v) :: rest else (k, w) :: mSet rest key v

/-! ### JavaScript `Set` operations.

A `Set` is a list of `(element, alive)` pairs in insertion order; `delete`
marks the entry dead rather than removing it, which models the ECMAScript
guarantee that an iterator in progress skips deleted entries without
shifting its position, and that an element deleted and re-added is appended
(and visited again).  Dead entries are invisible to `has`/`size`. -/

/-- `Set.has`. -/
def jsHas (s : List (Nat × Bool)) (cb : Nat) : Bool :=
  s.any (fun e => e.1 = cb && e.2)

/-- `Set.add`: no-op when present, else append. -/
def jsAdd (s : List (Nat × Bool)) (cb : Nat) : List (Nat × Bool) :=
  if jsHas s cb then s else s ++ [(cb, true)]

/-- `Set.delete`: mark the (unique) live entry dead. -/
def jsDelete : List (Nat × Bool) → Nat → List (Nat × Bool)
  | [], _ => []
  | (c, alive) :: rest, cb =>
      if c = cb && alive then (c, false) :: rest
      else (c, alive) :: jsDelete rest cb

/-- `Set.size`. -/
def jsSize (s : List (Nat × Bool)) : Nat := (s.filter (fun e => e.2)).length

/-- The live elements of a set, in insertion order. -/
def aliveList (s : List (Nat × Bool)) : List Nat :=
  (s.filter (fun e => e.2)).map (fun e => e.1)

/-! ### Subscription management (`subscribe` / `unsubscribe`, lines 468-513) -/

/-- The key `` `${feedName}:${channel}` `` of `this.subscribers`. -/
def subKey (feedName channel : String) : String :=
  feedName ++ ":" ++ channel

/-- The check `feed && feed.websocket && feed.websocket.readyState ===
WebSocket.OPEN` guarding every wire-level send. -/
def wsOpen (st : ServiceState) (feedName : String) : Bool :=
  match mGet st.feeds feedName with
  | some f =>
      match f.websocket with
      | some rs => rs == WsReadyState.opened
      | none => false
  | none => false

/-- `subscribe(feedName, channel, callback)` (lines 468-485): create the
set if absent, add the callback, and — unconditionally — send a wire-level
subscribe action when the feed's websocket is open. -/
def subscribe (st : ServiceState) (feedName channel : String) (cb : Nat) :
    ServiceState :=
  let key := subKey feedName channel
  let s := (mGet st.subscribers key).getD []
  let st1 := { st with subscribers := mSet st.subscribers key (jsAdd s cb) }
  if wsOpen st1 feedName then
    { st1 with sent := st1.sent ++ [⟨feedName, "subscribe", channel⟩] }
  else st1

/-- Invoking the closure returned by `subscribe` (lines 487-492): it only
deletes the callback from the set — no emptiness check, no wire action. -/
def subscribeHandle (st : ServiceState) (feedName channel : String)
    (cb : Nat) : ServiceState :=
  let key := subKey feedName channel
  match mGet st.subscribers key with
  | some s =>
      { st with subscribers := mSet st.subscribers key (jsDelete s cb) }
  | none => st

/-- `unsubscribe(feedName, channel, callback)` (lines 495-513): delete the
callback; if the set's size is now `0`, send a wire-level unsubscribe
action when the websocket is open.  The (now empty) map entry is kept. -/
def unsubscribe (st : ServiceState) (feedName channel : String) (cb : Nat) :
    ServiceState :=
  let key := subKey feedName channel
  match mGet st.subscribers key with
  | none => st
  | some s =>
      let s' := jsDelete s cb
      let st1 := { st with subscribers := mSet st.subscribers key s' }
      if jsSize s' = 0 then
        if wsOpen st1 feedName then
          { st1 with sent := st1.sent ++ [⟨feedName, "unsubscribe", channel⟩] }
        else st1
      else st1

/-! ### Subscriber notification (`notifySubscribers`, lines 515-529) -/

/-- The behaviour of one opaque subscriber callback: what its body does to
the service state when invoked, and whether it throws. -/
structure CbSpec : Type where
  act : ServiceState → ServiceState
  throws : Bool

/-- The observable output of one message-handling / notification pass:
which callbacks were invoked (in order), which of their exceptions were
caught and logged by the per-callback `try/catch`, and the feed names for
which `handleMessage`'s outer `catch` logged an error. -/
structure MsgOut : Type where
  invoked : List Nat
  caught : List Nat
  errors : List String
deriving DecidableEq, Repr

/-- `message.channel || 'default'` (JS `||` treats the empty string and a
missing property as falsy). -/
def channelOf (m : Msg) : String :=
  match m.channel with
  | some c => if c = "" then "default" else c
  | none => "default"

/-- The body of `subscribers.forEach(...)`: visit position `i` of the live
set (re-read from the state each step, since a callback may mutate it),
skip dead entries, invoke live ones under `try/catch`.  `fuel` bounds the
number of iterations; every theorem below supplies enough fuel for the
iteration to run to completion exactly as in the source. -/
def notifyLoop (env : Nat → CbSpec) (key : String) :
    Nat → Nat → ServiceState → List Nat → List Nat →
    ServiceState × List Nat × List Nat
  | 0, _, st, inv, cau => (st, inv, cau)
  | fuel + 1, i, st, inv, cau =>
      match ((mGet st.subscribers key).getD [])[i]? with
      | some (cb, true) =>
          notifyLoop env key fuel (i + 1) ((env cb).act st) (inv ++ [cb])
            (if (env cb).throws then cau ++ [cb] else cau)
      | some (_, false) => notifyLoop env key fuel (i + 1) st inv cau
      | none => (st, inv, cau)

/-- `notifySubscribers(feedName, message)` (lines 515-529): route under
`` `${feedName}:${message.channel || 'default'}` `` and iterate the live
subscriber set, catching (and logging) anything a callback throws. -/
def notifySubscribers (env : Nat → CbSpec) (fuel : Nat) (feedName : String)
    (m : Msg) (st : ServiceState) : ServiceState × MsgOut :=
  let key := subKey feedName (channelOf m)
  match mGet st.subscribers key with
  | some _ =>
      let r := notifyLoop env key fuel 0 st [] []
      (r.1, ⟨r.2.1, r.2.2, []⟩)
  | none => (st, ⟨[], [], []⟩)

/-! ### Ring buffer (`addToBuffer` / `cleanBuffer` / `getBuffer`) -/

/-- `maxBufferSize` of `addToBuffer` (line 404). -/
def maxBufferSize : Nat := 1000

/-- `maxAge` of `cleanBuffer` (line 418): 5 minutes in milliseconds. -/
def bufMaxAge : Nat := 5 * 60 * 1000

/-- The entry pushed by `addToBuffer`: the message with its `timestamp`
overwritten by `Date.now()`. -/
def stampMsg (now : Nat) (m : Msg) : Msg := { m with timestamp := some now }

/-- The size cap of `addToBuffer`: when the buffer exceeds
`maxBufferSize` entries, `splice(0, length - maxBufferSize)` removes the
oldest surplus. -/
def capBuf (fb : List Msg) : List Msg :=
  if maxBufferSize < fb.length then fb.drop (fb.length - maxBufferSize)
  else fb

/-- `addToBuffer(feedName, message)` (lines 392-408): push
`{...message, timestamp: Date.now()}` and splice away everything before
the last `maxBufferSize` entries. -/
def addToBuffer (now : Nat) (feedName : String) (m : Msg)
    (st : ServiceState) : ServiceState :=
  { st with
    buffer := mSet st.buffer feedName
      (capBuf (((mGet st.buffer feedName).getD []) ++ [stampMsg now m])) }

/-- `cleanBuffer()` (lines 417-428): for every feed keep only the entries
with `now - msg.timestamp < maxAge`. -/
def cleanBuffer (now : Nat) (st : ServiceState) : ServiceState :=
  { st with
    buffer := st.buffer.map (fun e =>
      (e.1, e.2.filter (fun m => now - m.timestamp.getD 0 < bufMaxAge))) }

/-- `getBuffer(feedName, limit)` (lines 679-682): `messages.slice(-limit)`
(for `limit = 0`, JS `slice(-0)` is `slice(0)`, the whole array). -/
def getBuffer (st : ServiceState) (feedName : String) (limit : Nat) :
    List Msg :=
  let messages := (mGet st.buffer feedName).getD []
  if limit = 0 then messages
  else messages.drop (messages.length - limit)

/-! ### Message pipeline (`handleMessage`, lines 151-177) -/

/-- A raw transport payload: either malformed (so `JSON.parse` throws) or
a well-formed encoding of a message. -/
inductive Raw : Type
  | malformed : String → Raw
  | wellFormed : Msg → Raw

/-- `JSON.parse` on a raw payload. -/
def parseRaw : Raw → Option Msg
  | .malformed _ => none
  | .wellFormed m => some m

/-- The `if (feed) { feed.lastMessage = …; feed.messageCount++;
feed.status = 'connected' }` block of `handleMessage`. -/
def touchFeed (feedName : String) (m : Msg) (st : ServiceState) :
    ServiceState :=
  match mGet st.feeds feedName with
  | some f =>
      { st with
        feeds := mSet st.feeds feedName
          { f with lastMessage := some m, messageCount := f.messageCount + 1,
                   status := "connected" } }
  | none => st

/-- `handleMessage(feedName, data)` (lines 151-177).  The whole body runs
in a single `try`: a parse failure or a throwing feed handler is caught by
the outer `catch` (which logs the feed name) and aborts the rest of the
body.  `handlers` maps a feed name to the throw behaviour of its handler
(`this.handlers[feedName]`, absent for unknown feeds). -/
def handleMessage (handlers : String → Option (Msg → Bool))
    (env : Nat → CbSpec) (fuel now : Nat) (feedName : String) (data : Raw)
    (st : ServiceState) : ServiceState × MsgOut :=
  match parseRaw data with
  | none => (st, ⟨[], [], [feedName]⟩)
  | some message =>
      let st1 := touchFeed feedName message st
      let handlerThrew : Bool :=
        match handlers feedName with
        | some h => h message
        | none => false
      if handlerThrew then (st1, ⟨[], [], [feedName]⟩)
      else
        notifySubscribers env fuel feedName message
          (addToBuffer now feedName message st1)

/-! ### Reconnection (`attemptReconnect`, lines 106-121) and the
always-failing-transport run of `connectFeed` (lines 65-104) -/

/-- `attemptReconnect(config)`: when the attempt counter has reached
`maxReconnectAttempts` just log and return; otherwise increment it and
schedule `connectFeed(config)` (modelled by appending to `pending`). -/
def attemptReconnect (cfg : FeedConfig) (st : ServiceState) : ServiceState :=
  let attempts := (mGet st.reconnectAttempts cfg.name).getD 0
  if cfg.maxReconnectAttempts ≤ attempts then st
  else
    { st with
      reconnectAttempts := mSet st.reconnectAttempts cfg.name (attempts + 1),
      pending := st.pending ++ [cfg] }

/-- The `feeds` entry written by `connectFeed` for a transport that failed
to open: `status: 'connecting'`, no message yet, and a websocket handle
whose `readyState` has reached `CLOSED`. -/
def failedFeed (cfg : FeedConfig) : Feed :=
  ⟨some WsReadyState.closed, cfg, "connecting", none, 0⟩

/-- One round of `connectFeed(config)` against a transport that always
fails to open: the constructor succeeds, the feed entry is written with
status `'connecting'`, then `onclose` fires and calls
`attemptReconnect(config)`. -/
def connectFeedFails (cfg : FeedConfig) (st : ServiceState) : ServiceState :=
  attemptReconnect cfg
    { st with feeds := mSet st.feeds cfg.name (failedFeed cfg) }

/-- The timer queue driver for the always-failing transport: repeatedly
run the next scheduled `connectFeed` until no reconnect is pending (or the
fuel runs out; the theorems supply enough fuel). -/
def runPendingFails : Nat → ServiceState → ServiceState
  | 0, st => st
  | fuel + 1, st =>
      match st.pending with
      | [] => st
      | cfg :: rest =>
          runPendingFails fuel (connectFeedFails cfg { st with pending := rest })

/-! ### Status queries (`getFeedStats`, lines 684-694) -/

/-- The record returned by `getFeedStats`. -/
structure FeedStats : Type where
  status : String
  messageCount : Nat
  lastMessage : Option Msg
  reconnectAttempts : Nat
deriving DecidableEq, Repr

/-- `getFeedStats(feedName)`: `null` for an unknown feed, else the status
record (attempt counter defaulted to 0). -/
def getFeedStats (st : ServiceState) (feedName : String) : Option FeedStats :=
  match mGet st.feeds feedName with
  | none => none
  | some f =>
      some ⟨f.status, f.messageCount, f.lastMessage,
            (mGet st.reconnectAttempts feedName).getD 0⟩

/-! ### Health monitoring (`checkConnectionHealth`, lines 453-466) -/

/-- `feed.lastMessage?.timestamp || 0`. -/
def lastTs (feed : Feed) : Nat :=
  match feed.lastMessage with
  | some m => m.timestamp.getD 0
  | none => 0

/-- The body of the `for (const [feedName, feed] of this.feeds)` loop of
`checkConnectionHealth`: when the feed is stale (no message for more than
a minute) warn (record the feed name) and — only when the websocket handle
exists and its `readyState` is not `OPEN` — call `attemptReconnect`. -/
def checkFeedHealth (now : Nat) (acc : ServiceState × List String)
    (e : String × Feed) : ServiceState × List String :=
  let feed := e.2
  if 60000 < now - lastTs feed then
    let acc1 := (acc.1, acc.2 ++ [e.1])
    match feed.websocket with
    | some rs =>
        if rs = WsReadyState.opened then acc1
        else (attemptReconnect feed.config acc1.1, acc1.2)
    | none => acc1
  else acc

/-- `checkConnectionHealth()` (lines 453-466), returning the state and the
names of the feeds warned about.  The loop iterates the `feeds` map, which
none of its own effects modify. -/
def checkConnectionHealth (now : Nat) (st : ServiceState) :
    ServiceState × List String :=
  st.feeds.foldl (checkFeedHealth now) (st, [])

/-- Appending a timed sequence of messages to one feed's buffer
(each pair is an arrival time and the message received then). -/
def appendAll (feedName : String) (msgs : List (Nat × Msg))
    (st : ServiceState) : ServiceState :=
  msgs.foldl (fun acc p => addToBuffer p.1 feedName p.2 acc) st

/-! ### Map and list helper lemmas -/

theorem mGet_mSet_self {α : Type} :
    ∀ (m : List (String × α)) (k : String) (v : α),
      mGet (mSet m k v) k = some v
  | [], k, v => by simp [mGet, mSet]
  | (a, _) :: rest, k, v => by
      by_cases h : a = k
      · simp [mSet, mGet, h]
      · simp [mSet, mGet, h, mGet_mSet_self rest k v]

theorem mGet_map {α β : Type} (f : α → β) :
    ∀ (m : List (String × α)) (k : String),
      mGet (m.map (fun e => (e.1, f e.2))) k = (mGet m k).map f
  | [], _ => rfl
  | (a, _) :: rest, k => by
      by_cases h : a = k
      · simp [mGet, h]
      · simp [mGet, h, mGet_map f rest k]

/-- The last `n` elements of a list. -/
def takeLast {α : Type} (n : Nat) (l : List α) : List α :=
  l.drop (l.length - n)

theorem takeLast_length_le {α : Type} (n : Nat) (l : List α) :
    (takeLast n l).length ≤ n := by
  simp only [takeLast, List.length_drop]
  omega

theorem takeLast_of_le {α : Type} {n : Nat} {l : List α} (h : l.length ≤ n) :
    takeLast n l = l := by
  simp [takeLast, Nat.sub_eq_zero_of_le h]

theorem capBuf_eq_takeLast (fb : List Msg) :
    capBuf fb = takeLast maxBufferSize fb := by
  by_cases h : maxBufferSize < fb.length
  · simp [capBuf, h, takeLast]
  · simp only [capBuf, h, if_false]
    exact (takeLast_of_le (Nat.le_of_not_lt h)).symm

theorem takeLast_append_left {α : Type} (n : Nat) (l1 l2 : List α) :
    takeLast n (takeLast n l1 ++ l2) = takeLast n (l1 ++ l2) := by
  by_cases h : l1.length ≤ n
  · rw [takeLast_of_le h]
  · have hn : n < l1.length := Nat.lt_of_not_le h
    have hk : l1.length - n ≤ l1.length := Nat.sub_le _ _
    have hlen : (l1.drop (l1.length - n)).length = n := by
      simp only [List.length_drop]
      omega
    simp only [takeLast, List.length_append, hlen]
    have h2 : n + l2.length - n = l2.length := by omega
    rw [h2, ← List.drop_append_of_le_length hk, List.drop_drop]
    congr 1
    omega

theorem addToBuffer_buffer (now : Nat) (feedName : String) (m : Msg)
    (st : ServiceState) :
    mGet (addToBuffer now feedName m st).buffer feedName =
      some (takeLast maxBufferSize
        (((mGet st.buffer feedName).getD []) ++ [stampMsg now m])) := by
  simp only [addToBuffer]
  rw [mGet_mSet_self, capBuf_eq_takeLast]

theorem appendAll_buffer (feedName : String) :
    ∀ (msgs : List (Nat × Msg)) (st : ServiceState) (bs : List Msg),
      mGet st.buffer feedName = some bs → bs.length ≤ maxBufferSize →
      mGet (appendAll feedName msgs st).buffer feedName =
        some (takeLast maxBufferSize
          (bs ++ msgs.map (fun p => stampMsg p.1 p.2)))
  | [], st, bs, h, hlen => by
      simp only [appendAll, List.foldl_nil, List.map_nil, List.append_nil, h,
        takeLast_of_le hlen]
  | p :: rest, st, bs, h, hlen => by
      have hstep := addToBuffer_buffer p.1 feedName p.2 st
      rw [h] at hstep
      have ih := appendAll_buffer feedName rest
        (addToBuffer p.1 feedName p.2 st)
        (takeLast maxBufferSize (bs ++ [stampMsg p.1 p.2])) hstep
        (takeLast_length_le _ _)
      simp only [appendAll, List.foldl_cons] at ih ⊢
      rw [ih, takeLast_append_left]
      simp

/-! ### Claim C7 -/

set_option maxRecDepth 4000

/-- **C7** (confirmed): for every feed, after any buffer append the
per-feed buffer length never exceeds the cap of 1000 entries; after any
buffer-cleaning pass every stored entry is younger than the 5-minute
window; and appending any ≥ 1000 timed messages to feed `market` from a
fresh state makes `getBuffer('market', 2000)` return exactly the most
recent 1000 stamped messages in arrival order (oldest first) — with no
duplicates when the arrival timestamps are pairwise distinct. -/
theorem C7_buffer_invariants :
    (∀ (now : Nat) (feedName : String) (m : Msg) (st : ServiceState),
      ((mGet (addToBuffer now feedName m st).buffer feedName).getD []).length
        ≤ maxBufferSize) ∧
    (∀ (now : Nat) (st : ServiceState) (feedName : String) (m : Msg),
      m ∈ (mGet (cleanBuffer now st).buffer feedName).getD [] →
      now - m.timestamp.getD 0 < bufMaxAge) ∧
    (∀ msgs : List (Nat × Msg), maxBufferSize ≤ msgs.length →
      getBuffer (appendAll "market" msgs emptyState) "market" 2000 =
        (msgs.map (fun p => stampMsg p.1 p.2)).drop
          (msgs.length - maxBufferSize) ∧
      ((msgs.map Prod.fst).Nodup →
        (getBuffer (appendAll "market" msgs emptyState) "market" 2000).Nodup)) := by
  refine ⟨?_, ?_, ?_⟩
  · intro now feedName m st
    rw [addToBuffer_buffer]
    simp only [Option.getD_some]
    exact takeLast_length_le _ _
  · intro now st feedName m hm
    simp only [cleanBuffer] at hm
    rw [mGet_map (List.filter
      (fun mm : Msg => decide (now - mm.timestamp.getD 0 < bufMaxAge)))] at hm
    cases h : mGet st.buffer feedName with
    | none => rw [h] at hm; simp at hm
    | some l =>
        rw [h] at hm
        simp only [Option.map_some', Option.getD_some, List.mem_filter,
          decide_eq_true_eq] at hm
        exact hm.2
  · intro msgs hlen
    cases msgs with
    | nil => exact absurd hlen (by decide)
    | cons p rest =>
        have hsing : ([stampMsg p.1 p.2] : List Msg).length ≤ maxBufferSize := by
          simp only [List.length_singleton, maxBufferSize]
          omega
        have h0 : mGet (addToBuffer p.1 "market" p.2 emptyState).buffer
            "market" = some [stampMsg p.1 p.2] := by
          rw [addToBuffer_buffer]
          have he : (mGet emptyState.buffer "market").getD [] =
              ([] : List Msg) := rfl
          rw [he, List.nil_append, takeLast_of_le hsing]
        have happ := appendAll_buffer "market" rest
          (addToBuffer p.1 "market" p.2 emptyState) [stampMsg p.1 p.2] h0 hsing
        have hall : mGet (appendAll "market" (p :: rest) emptyState).buffer
            "market" = some (takeLast maxBufferSize
              ((p :: rest).map (fun q => stampMsg q.1 q.2))) := by
          simp only [appendAll, List.foldl_cons] at happ ⊢
          rw [happ]
          simp only [List.map_cons, List.singleton_append]
        have hgb : getBuffer (appendAll "market" (p :: rest) emptyState)
            "market" 2000 = takeLast maxBufferSize
              ((p :: rest).map (fun q => stampMsg q.1 q.2)) := by
          simp only [getBuffer]
          rw [hall, if_neg (show ¬ (2000 : Nat) = 0 by omega)]
          simp only [Option.getD_some]
          have hsmall := takeLast_length_le maxBufferSize
            ((p :: rest).map (fun q => stampMsg q.1 q.2))
          have hz : (takeLast maxBufferSize
              ((p :: rest).map fun q => stampMsg q.1 q.2)).length - 2000
              = 0 := by
            simp only [maxBufferSize] at hsmall ⊢
            omega
          rw [hz, List.drop_zero]
        constructor
        · rw [hgb]
          simp only [takeLast, List.length_map]
        · intro hnd
          have hts : (((p :: rest).map (fun q => stampMsg q.1 q.2)).map
              (fun m => m.timestamp)) = ((p :: rest).map Prod.fst).map some := by
            simp only [List.map_map]
            rfl
          have hnd2 : ((p :: rest).map (fun q => stampMsg q.1 q.2)).Nodup := by
            refine List.Nodup.of_map (fun m => m.timestamp) ?_
            rw [hts]
            exact hnd.map (Option.some_injective Nat)
          rw [hgb]
          simp only [takeLast]
          exact hnd2.sublist (List.drop_sublist _ _)

/-- Concrete 1500-message input for the C7 witness: message `i` arrives at
time `i`. -/
def msgs1500 : List (Nat × Msg) :=
  (List.range 1500).map (fun i => (i, ⟨none, none, none, i⟩))

/-- Witness for C7: concrete instances discharging each hypothesis — an
append to a fresh state stays under the cap, a cleaned entry is inside the
window, and the 1500-message scenario returns the most recent 1000 without
duplicates. -/
theorem C7_witness :
    (((mGet (addToBuffer 5 "market" ⟨none, none, none, 0⟩
        emptyState).buffer "market").getD []).length ≤ maxBufferSize) ∧
    (200 - (Msg.mk none none (some 100) 0).timestamp.getD 0 < bufMaxAge) ∧
    (getBuffer (appendAll "market" msgs1500 emptyState) "market" 2000 =
      (msgs1500.map (fun p => stampMsg p.1 p.2)).drop
        (msgs1500.length - maxBufferSize)) ∧
    (getBuffer (appendAll "market" msgs1500 emptyState) "market" 2000).Nodup := by
  have hlen : maxBufferSize ≤ msgs1500.length := by
    simp only [msgs1500, List.length_map, List.length_range, maxBufferSize]
    omega
  have hnd : (msgs1500.map Prod.fst).Nodup := by
    have h : msgs1500.map Prod.fst = List.range 1500 := by
      simp only [msgs1500, List.map_map]
      exact List.map_id _
    rw [h]
    exact List.nodup_range 1500
  have hmem : (Msg.mk none none (some 100) 0) ∈
      (mGet (cleanBuffer 200
        ⟨[], [], [("market", [Msg.mk none none (some 100) 0])], [], [], []⟩).buffer
        "market").getD [] := by decide
  exact ⟨C7_buffer_invariants.1 5 "market" ⟨none, none, none, 0⟩ emptyState,
    C7_buffer_invariants.2.1 200 _ "market" _ hmem,
    (C7_buffer_invariants.2.2 msgs1500 hlen).1,
    (C7_buffer_invariants.2.2 msgs1500 hlen).2 hnd⟩

/-! ### Claim C8 -/

/-- **C8** (confirmed): a malformed raw payload is dropped — `JSON.parse`
throws, the outer `catch` logs the feed name (`errors` output), no
exception escapes `handleMessage` (it is a total function into states),
the whole service state — feeds, buffer, subscribers, connection openness —
is unchanged, and any subsequent message on the same feed is processed
exactly as if the malformed one had never arrived. -/
theorem C8_parse_error_recovery :
    ∀ (handlers : String → Option (Msg → Bool)) (env : Nat → CbSpec)
      (fuel now : Nat) (feedName s : String) (st : ServiceState),
      handleMessage handlers env fuel now feedName (Raw.malformed s) st
        = (st, ⟨[], [], [feedName]⟩) ∧
      wsOpen (handleMessage handlers env fuel now feedName
        (Raw.malformed s) st).1 feedName = wsOpen st feedName ∧
      (∀ (fuel2 now2 : Nat) (data : Raw),
        handleMessage handlers env fuel2 now2 feedName data
          (handleMessage handlers env fuel now feedName
            (Raw.malformed s) st).1
        = handleMessage handlers env fuel2 now2 feedName data st) := by
  intro handlers env fuel now feedName s st
  have h : handleMessage handlers env fuel now feedName (Raw.malformed s) st
      = (st, ⟨[], [], [feedName]⟩) := rfl
  exact ⟨h, by rw [h], fun fuel2 now2 data => by rw [h]⟩

/-! ### Claim C1 -/

/-- A feed config like the source's `market` entry. -/
def cfgMarket : FeedConfig := ⟨"market", 5000, 10⟩

/-- A feed whose websocket is currently open. -/
def openFeed (cfg : FeedConfig) : Feed :=
  ⟨some WsReadyState.opened, cfg, "connected", none, 0⟩

/-- A service state with a single open `market` feed and no subscribers. -/
def stOpen : ServiceState :=
  ⟨[("market", openFeed cfgMarket)], [], [], [], [], []⟩

/-- **C1** (counterexample): subscribing two callbacks to the same
`(market, BTCUSDT)` — a single zero→nonzero transition of the subscriber
set — sends TWO wire-level subscribe actions: the wire action is repeated
on every subscribe call, not fired once per transition. -/
theorem C1_counterexample :
    jsSize ((mGet (subscribe stOpen "market" "BTCUSDT" 1).subscribers
      "market:BTCUSDT").getD []) ≠ 0 ∧
    (subscribe (subscribe stOpen "market" "BTCUSDT" 1) "market" "BTCUSDT"
      2).sent =
      [⟨"market", "subscribe", "BTCUSDT"⟩,
       ⟨"market", "subscribe", "BTCUSDT"⟩] :=
  ⟨by decide, rfl⟩

theorem wsOpen_set_subscribers (st : ServiceState)
    (x : List (String × List (Nat × Bool))) (f : String) :
    wsOpen { st with subscribers := x } f = wsOpen st f := rfl

/-- **C1** (amended theorem): while the feed's websocket is open, a
wire-level subscribe action is sent on EVERY subscribe call (duplicates
included); a wire-level unsubscribe action is sent by an unsubscribe call
exactly when the key's set exists and the deletion leaves its size zero
while the websocket is open. -/
theorem C1_amended :
    (∀ (st : ServiceState) (f c : String) (cb : Nat),
      (subscribe st f c cb).sent =
        st.sent ++ (if wsOpen st f then [⟨f, "subscribe", c⟩] else [])) ∧
    (∀ (st : ServiceState) (f c : String) (cb : Nat),
      (unsubscribe st f c cb).sent =
        st.sent ++
          (match mGet st.subscribers (subKey f c) with
           | none => []
           | some s =>
              if jsSize (jsDelete s cb) = 0 ∧ wsOpen st f
              then [⟨f, "unsubscribe", c⟩] else [])) := by
  constructor
  · intro st f c cb
    simp only [subscribe, wsOpen_set_subscribers]
    by_cases h : wsOpen st f
    · simp [h]
    · simp [h]
  · intro st f c cb
    cases h : mGet st.subscribers (subKey f c) with
    | none => simp [unsubscribe, h]
    | some s =>
        simp only [unsubscribe, h, wsOpen_set_subscribers]
        by_cases h0 : jsSize (jsDelete s cb) = 0
        · by_cases hw : wsOpen st f
          · simp [h0, hw]
          · simp [h0, hw]
        · simp [h0]

/-! ### Claim C6 -/

/-- **C6** (counterexample): after subscribing callback 1 to
`(market, BTCUSDT)` and unsubscribing it again, the subscription table
still holds the `market:BTCUSDT` entry — with an empty (size-0)
subscriber set — and the handle returned by subscribe sends no wire
unsubscribe where `unsubscribe` does, so the two are not the same
operation. -/
theorem C6_counterexample :
    mGet (unsubscribe (subscribe stOpen "market" "BTCUSDT" 1) "market"
      "BTCUSDT" 1).subscribers "market:BTCUSDT" = some [(1, false)] ∧
    jsSize [(1, false)] = 0 ∧
    (subscribeHandle (subscribe stOpen "market" "BTCUSDT" 1) "market"
      "BTCUSDT" 1).sent = [⟨"market", "subscribe", "BTCUSDT"⟩] ∧
    (unsubscribe (subscribe stOpen "market" "BTCUSDT" 1) "market"
      "BTCUSDT" 1).sent =
      [⟨"market", "subscribe", "BTCUSDT"⟩,
       ⟨"market", "unsubscribe", "BTCUSDT"⟩] :=
  ⟨rfl, rfl, rfl, rfl⟩

/-- **C6** (amended theorem): removing the last subscriber does NOT remove
the `(feed, channel)` entry — `unsubscribe` keeps the (now empty) entry in
the table while sending the wire unsubscribe exactly when the set became
empty and the websocket is open; and the handle returned by `subscribe`
only deletes the callback from the set: it never sends any wire action,
so it does not perform the same operation as `unsubscribe`. -/
theorem C6_amended :
    (∀ (st : ServiceState) (f c : String) (cb : Nat)
        (s : List (Nat × Bool)),
      mGet st.subscribers (subKey f c) = some s →
      mGet (unsubscribe st f c cb).subscribers (subKey f c)
        = some (jsDelete s cb)) ∧
    (∀ (st : ServiceState) (f c : String) (cb : Nat)
        (s : List (Nat × Bool)),
      mGet st.subscribers (subKey f c) = some s →
      subscribeHandle st f c cb =
        { st with
          subscribers := mSet st.subscribers (subKey f c) (jsDelete s cb) }) ∧
    (∀ (st : ServiceState) (f c : String) (cb : Nat),
      (subscribeHandle st f c cb).sent = st.sent) := by
  refine ⟨?_, ?_, ?_⟩
  · intro st f c cb s h
    simp only [unsubscribe, h, wsOpen_set_subscribers]
    by_cases h0 : jsSize (jsDelete s cb) = 0
    · by_cases hw : wsOpen st f
      · simp [h0, hw, mGet_mSet_self]
      · simp [h0, hw, mGet_mSet_self]
    · simp [h0, mGet_mSet_self]
  · intro st f c cb s h
    simp [subscribeHandle, h]
  · intro st f c cb
    cases h : mGet st.subscribers (subKey f c) with
    | none => simp [subscribeHandle, h]
    | some s => simp [subscribeHandle, h]

/-- Witness for C6: the amended statements applied to the concrete
one-subscriber open-feed state. -/
theorem C6_witness :
    mGet (unsubscribe (subscribe stOpen "market" "BTCUSDT" 7) "market"
      "BTCUSDT" 7).subscribers (subKey "market" "BTCUSDT")
      = some (jsDelete [(7, true)] 7) ∧
    (subscribeHandle (subscribe stOpen "market" "BTCUSDT" 7) "market"
      "BTCUSDT" 7).sent = (subscribe stOpen "market" "BTCUSDT" 7).sent :=
  ⟨C6_amended.1 (subscribe stOpen "market" "BTCUSDT" 7) "market" "BTCUSDT" 7
      [(7, true)] (by decide),
   C6_amended.2.2 (subscribe stOpen "market" "BTCUSDT" 7) "market"
      "BTCUSDT" 7⟩

/-! ### Claim C2 -/

/-- The test-mode config of the claimed scenario: feed `market`,
`reconnectInterval = 0`, `maxReconnectAttempts = 3`. -/
def cfgMarketTest : FeedConfig := ⟨"market", 0, 3⟩

/-- Once nothing is pending, the reconnect driver does nothing (no further
automatic reconnect is ever run). -/
theorem runPendingFails_nil (k : Nat) (st : ServiceState)
    (h : st.pending = []) : runPendingFails k st = st := by
  cases k with
  | zero => rfl
  | succ n => simp only [runPendingFails, h]

/-- **C2** (counterexample): in the claimed scenario —
`maxReconnectAttempts = 3`, `reconnectInterval = 0`, transport always
failing to open — after the reconnect process has run to quiescence the
status query reports `'connecting'`, not `'Failed'`: the service has no
`Failed` state at all. -/
theorem C2_counterexample :
    (getFeedStats (runPendingFails 10 (connectFeedFails cfgMarketTest
      emptyState)) "market").map FeedStats.status = some "connecting" ∧
    some "connecting" ≠ some "Failed" :=
  ⟨rfl, by decide⟩

/-- **C2** (amended theorem): in the scenario, after 3 failed reconnect
attempts the attempt counter equals `maxReconnectAttempts = 3`, the
queryable status is `'connecting'` (never `'Failed'`), no reconnect
remains scheduled, running the driver any longer changes nothing, and in
general `attemptReconnect` schedules nothing once the attempt counter has
reached the configured maximum. -/
theorem C2_amended :
    getFeedStats (runPendingFails 10 (connectFeedFails cfgMarketTest
        emptyState)) "market" = some ⟨"connecting", 0, none, 3⟩ ∧
    (runPendingFails 10 (connectFeedFails cfgMarketTest
        emptyState)).pending = [] ∧
    (∀ k : Nat, runPendingFails k (runPendingFails 10 (connectFeedFails
        cfgMarketTest emptyState)) = runPendingFails 10 (connectFeedFails
        cfgMarketTest emptyState)) ∧
    (∀ (cfg : FeedConfig) (st : ServiceState),
      cfg.maxReconnectAttempts ≤ (mGet st.reconnectAttempts cfg.name).getD 0 →
      attemptReconnect cfg st = st) := by
  refine ⟨rfl, rfl, fun k => runPendingFails_nil k _ rfl, ?_⟩
  intro cfg st h
  simp [attemptReconnect, h]

/-- Witness for C2: the stopping rule of `attemptReconnect` applied at the
concrete quiescent state of the scenario (attempt counter 3 = maximum). -/
theorem C2_witness :
    attemptReconnect cfgMarketTest (runPendingFails 10 (connectFeedFails
      cfgMarketTest emptyState)) = runPendingFails 10 (connectFeedFails
      cfgMarketTest emptyState) :=
  C2_amended.2.2.2 cfgMarketTest _ (by decide)

/-! ### Claim C5 -/

/-- A `market` feed that is stale (last message at time 0) while its
websocket still reports `OPEN`. -/
def staleOpenFeed : Feed :=
  ⟨some WsReadyState.opened, cfgMarket, "connected",
    some ⟨none, none, some 0, 0⟩, 5⟩

/-- A state holding only the stale-but-open `market` feed. -/
def stStale : ServiceState :=
  ⟨[("market", staleOpenFeed)], [], [], [], [], []⟩

/-- **C5** (counterexample): at `now = 100000` the `market` feed has been
silent for well over the 60-second threshold, yet — because its transport
handle still reports `OPEN` — the health check only warns and leaves the
state completely unchanged: no reconnect cycle is forced. -/
theorem C5_counterexample :
    60000 < 100000 - lastTs staleOpenFeed ∧
    checkConnectionHealth 100000 stStale = (stStale, ["market"]) :=
  ⟨by decide, by decide⟩

/-- **C5** (amended theorem): per feed, when the staleness check finds
`now − lastMessage.timestamp > 60000` it records a warning, and it calls
`attemptReconnect` only when the feed's websocket handle exists and its
`readyState` is not `OPEN`; a stale feed whose handle reports `OPEN` (and
a non-stale feed) is left untouched. -/
theorem C5_amended :
    (∀ (now : Nat) (acc : ServiceState × List String) (n : String)
        (feed : Feed),
      60000 < now - lastTs feed →
      feed.websocket = some WsReadyState.opened →
      checkFeedHealth now acc (n, feed) = (acc.1, acc.2 ++ [n])) ∧
    (∀ (now : Nat) (acc : ServiceState × List String) (n : String)
        (feed : Feed) (rs : WsReadyState),
      60000 < now - lastTs feed →
      feed.websocket = some rs → rs ≠ WsReadyState.opened →
      checkFeedHealth now acc (n, feed) =
        (attemptReconnect feed.config acc.1, acc.2 ++ [n])) ∧
    (∀ (now : Nat) (acc : ServiceState × List String) (n : String)
        (feed : Feed),
      now - lastTs feed ≤ 60000 →
      checkFeedHealth now acc (n, feed) = acc) := by
  refine ⟨?_, ?_, ?_⟩
  · intro now acc n feed h hws
    simp [checkFeedHealth, h, hws]
  · intro now acc n feed rs h hws hne
    simp [checkFeedHealth, h, hws, hne]
  · intro now acc n feed h
    simp [checkFeedHealth, Nat.not_lt.mpr h]

/-- A `market` feed that is stale and whose websocket handle has reached
`CLOSED`. -/
def staleClosedFeed : Feed :=
  ⟨some WsReadyState.closed, cfgMarket, "connected",
    some ⟨none, none, some 0, 0⟩, 5⟩

/-- Witness for C5: all three amended branches applied at concrete feeds —
stale-and-open (warn only), stale-and-closed (reconnect), fresh (no-op). -/
theorem C5_witness :
    checkFeedHealth 100000 (stStale, []) ("market", staleOpenFeed)
      = (stStale, [] ++ ["market"]) ∧
    checkFeedHealth 100000 (stStale, []) ("m2", staleClosedFeed)
      = (attemptReconnect staleClosedFeed.config stStale, [] ++ ["m2"]) ∧
    checkFeedHealth 100000 (stStale, [])
      ("m3", ⟨some WsReadyState.opened, cfgMarket, "connected",
        some ⟨none, none, some 99999, 0⟩, 5⟩) = (stStale, []) :=
  ⟨C5_amended.1 100000 (stStale, []) "market" staleOpenFeed (by decide) rfl,
   C5_amended.2.1 100000 (stStale, []) "m2" staleClosedFeed
     WsReadyState.closed (by decide) rfl (by decide),
   C5_amended.2.2 100000 (stStale, []) "m3" _ (by decide)⟩

/-! ### The forEach loop of `notifySubscribers`: key lemmas -/

theorem aliveList_cons_true (cb : Nat) (rest : List (Nat × Bool)) :
    aliveList ((cb, true) :: rest) = cb :: aliveList rest := by
  simp [aliveList]

theorem aliveList_cons_false (cb : Nat) (rest : List (Nat × Bool)) :
    aliveList ((cb, false) :: rest) = aliveList rest := by
  simp [aliveList]

/-- When no invoked callback changes the key's subscriber entry, the
`forEach` loop from position `i` invokes exactly the live members of the
set from position `i` on — the source's live iteration coincides with a
snapshot iteration for non-mutating callbacks. -/
theorem notifyLoop_stable_invoked (env : Nat → CbSpec) (key : String)
    (s : List (Nat × Bool))
    (henv : ∀ (cb : Nat) (x : ServiceState),
      mGet ((env cb).act x).subscribers key = mGet x.subscribers key) :
    ∀ (fuel i : Nat) (st : ServiceState) (inv cau : List Nat),
      mGet st.subscribers key = some s → s.length - i ≤ fuel →
      (notifyLoop env key fuel i st inv cau).2.1
        = inv ++ aliveList (s.drop i) := by
  intro fuel
  induction fuel with
  | zero =>
      intro i st inv cau hst hf
      have hdrop : s.drop i = [] := List.drop_eq_nil_of_le (by omega)
      simp [notifyLoop, hdrop, aliveList]
  | succ n ih =>
      intro i st inv cau hst hf
      simp only [notifyLoop, hst, Option.getD_some]
      split
      next cb heq =>
          obtain ⟨hlt, hgi⟩ := List.getElem?_eq_some_iff.mp heq
          have hdrop := List.drop_eq_getElem_cons hlt
          rw [hgi] at hdrop
          have hst1 : mGet ((env cb).act st).subscribers key = some s := by
            rw [henv cb st]; exact hst
          rw [ih (i + 1) ((env cb).act st) (inv ++ [cb])
            (if (env cb).throws then cau ++ [cb] else cau) hst1 (by omega),
            hdrop, aliveList_cons_true]
          simp
      next fst heq =>
          obtain ⟨hlt, hgi⟩ := List.getElem?_eq_some_iff.mp heq
          have hdrop := List.drop_eq_getElem_cons hlt
          rw [hgi] at hdrop
          rw [ih (i + 1) st inv cau hst (by omega), hdrop,
            aliveList_cons_false]
      next heq =>
          have hge : s.length ≤ i := List.getElem?_eq_none_iff.mp heq
          have hdrop : s.drop i = [] := List.drop_eq_nil_of_le hge
          simp [hdrop, aliveList]

/-- For callbacks whose bodies do nothing to the service state (they may
still throw), the loop leaves the state untouched, invokes every live
member in order, and catches (logs) exactly the throwing ones. -/
theorem notifyLoop_id (env : Nat → CbSpec) (key : String)
    (s : List (Nat × Bool))
    (hid : ∀ cb : Nat, (env cb).act = fun x => x) :
    ∀ (fuel i : Nat) (st : ServiceState) (inv cau : List Nat),
      mGet st.subscribers key = some s → s.length - i ≤ fuel →
      notifyLoop env key fuel i st inv cau
        = (st, inv ++ aliveList (s.drop i),
           cau ++ (aliveList (s.drop i)).filter
             (fun cb => (env cb).throws)) := by
  intro fuel
  induction fuel with
  | zero =>
      intro i st inv cau hst hf
      have hdrop : s.drop i = [] := List.drop_eq_nil_of_le (by omega)
      simp [notifyLoop, hdrop, aliveList]
  | succ n ih =>
      intro i st inv cau hst hf
      simp only [notifyLoop, hst, Option.getD_some]
      split
      next cb heq =>
          obtain ⟨hlt, hgi⟩ := List.getElem?_eq_some_iff.mp heq
          have hdrop := List.drop_eq_getElem_cons hlt
          rw [hgi] at hdrop
          simp only [hid]
          rw [ih (i + 1) st (inv ++ [cb])
            (if (env cb).throws then cau ++ [cb] else cau) hst (by omega),
            hdrop, aliveList_cons_true]
          by_cases ht : (env cb).throws
          · simp [ht, List.filter_cons]
          · simp [ht, List.filter_cons]
      next fst heq =>
          obtain ⟨hlt, hgi⟩ := List.getElem?_eq_some_iff.mp heq
          have hdrop := List.drop_eq_getElem_cons hlt
          rw [hgi] at hdrop
          rw [ih (i + 1) st inv cau hst (by omega), hdrop,
            aliveList_cons_false]
      next heq =>
          have hge : s.length ≤ i := List.getElem?_eq_none_iff.mp heq
          have hdrop : s.drop i = [] := List.drop_eq_nil_of_le hge
          simp [hdrop, aliveList]

/-! ### Claim C3 -/

/-- A market-data message on channel `BTCUSDT`. -/
def mBTC : Msg := ⟨some "BTCUSDT", none, none, 0⟩

/-- A callback environment where callback 1 synchronously subscribes
callback 2 to the same `(market, BTCUSDT)` during its invocation. -/
def envC3 : Nat → CbSpec := fun cb =>
  if cb = 1 then ⟨fun x => subscribe x "market" "BTCUSDT" 2, false⟩
  else ⟨fun x => x, false⟩

/-- A state whose only subscriber of `(market, BTCUSDT)` is callback 1. -/
def stC3 : ServiceState :=
  ⟨[], [("market:BTCUSDT", [(1, true)])], [], [], [], []⟩

/-- **C3** (counterexample): the subscriber set of `(market, BTCUSDT)` at
the start of the notify call is `{1}`, yet callbacks `[1, 2]` are invoked:
`notifySubscribers` iterates the live `Set`, not a snapshot copy, so the
callback subscribed by callback 1 during the call is also invoked. -/
theorem C3_counterexample :
    aliveList ((mGet stC3.subscribers
      (subKey "market" (channelOf mBTC))).getD []) = [1] ∧
    (notifySubscribers envC3 10 "market" mBTC stC3).2.invoked = [1, 2] :=
  ⟨rfl, rfl⟩

/-- **C3** (amended theorem): `notifySubscribers` iterates the live set;
only when no invoked callback mutates that key's subscriber entry is the
set of invoked callbacks exactly the subscriber set as of the start of the
call (a callback that synchronously subscribes to the same key makes the
new callback be invoked too, as the counterexample shows). -/
theorem C3_amended :
    ∀ (env : Nat → CbSpec) (f : String) (m : Msg) (st : ServiceState)
      (s : List (Nat × Bool)) (fuel : Nat),
      (∀ (cb : Nat) (x : ServiceState),
        mGet ((env cb).act x).subscribers (subKey f (channelOf m))
          = mGet x.subscribers (subKey f (channelOf m))) →
      mGet st.subscribers (subKey f (channelOf m)) = some s →
      s.length ≤ fuel →
      (notifySubscribers env fuel f m st).2.invoked = aliveList s := by
  intro env f m st s fuel henv hst hf
  simp only [notifySubscribers, hst]
  have h := notifyLoop_stable_invoked env (subKey f (channelOf m)) s henv
    fuel 0 st [] [] hst (by omega)
  simpa using h

/-- The identity/no-op callback environment (callbacks that neither throw
nor touch the state). -/
def envId : Nat → CbSpec := fun _ => ⟨fun x => x, false⟩

/-- A state with two live subscribers (1 and 2) of `(market, BTCUSDT)`. -/
def stTwoSubs : ServiceState :=
  ⟨[], [("market:BTCUSDT", [(1, true), (2, true)])], [], [], [], []⟩

/-- Witness for C3: with non-mutating callbacks, notification of
`(market, BTCUSDT)` invokes exactly the two call-start subscribers. -/
theorem C3_witness :
    (notifySubscribers envId 10 "market" mBTC stTwoSubs).2.invoked
      = aliveList [(1, true), (2, true)] :=
  C3_amended envId "market" mBTC stTwoSubs [(1, true), (2, true)] 10
    (fun _ _ => rfl) (by decide) (by decide)

/-! ### Claim C9 -/

/-- The same callback environment with every `throws` flag cleared. -/
def clearThrows (env : Nat → CbSpec) : Nat → CbSpec :=
  fun cb => ⟨(env cb).act, false⟩

/-- Throwing is fully contained by the per-callback `try/catch`: the loop
run with throwing callbacks reaches exactly the same state and invokes
exactly the same callbacks as the run where no callback throws. -/
theorem notifyLoop_clearThrows (env : Nat → CbSpec) (key : String) :
    ∀ (fuel i : Nat) (st : ServiceState) (inv cau cau' : List Nat),
      (notifyLoop env key fuel i st inv cau).1
        = (notifyLoop (clearThrows env) key fuel i st inv cau').1 ∧
      (notifyLoop env key fuel i st inv cau).2.1
        = (notifyLoop (clearThrows env) key fuel i st inv cau').2.1 := by
  intro fuel
  induction fuel with
  | zero =>
      intro i st inv cau cau'
      exact ⟨rfl, rfl⟩
  | succ n ih =>
      intro i st inv cau cau'
      show ((match ((mGet st.subscribers key).getD [])[i]? with
        | some (cb, true) =>
            notifyLoop env key n (i + 1) ((env cb).act st) (inv ++ [cb])
              (if (env cb).throws then cau ++ [cb] else cau)
        | some (_, false) => notifyLoop env key n (i + 1) st inv cau
        | none => (st, inv, cau)).1 = _) ∧ _
      cases hcb : ((mGet st.subscribers key).getD [])[i]? with
      | none => simp [notifyLoop, hcb]
      | some e =>
          obtain ⟨cb, alive⟩ := e
          cases alive
          · simp only [notifyLoop, hcb]
            exact ih (i + 1) st inv cau cau'
          · simp only [notifyLoop, hcb]
            exact ih (i + 1) ((env cb).act st) (inv ++ [cb])
              (if (env cb).throws then cau ++ [cb] else cau) cau'

/-- `notifySubscribers` for callbacks that do not mutate the service state:
the state is returned unchanged, every live subscriber of the routed key is
invoked in order, and exactly the throwing callbacks are caught. -/
theorem notifySubscribers_id (env : Nat → CbSpec) (fuel : Nat) (f : String)
    (m : Msg) (st : ServiceState) (s : List (Nat × Bool))
    (hid : ∀ cb : Nat, (env cb).act = fun x => x)
    (hst : mGet st.subscribers (subKey f (channelOf m)) = some s)
    (hf : s.length ≤ fuel) :
    notifySubscribers env fuel f m st
      = (st, ⟨aliveList s,
          (aliveList s).filter (fun cb => (env cb).throws), []⟩) := by
  simp only [notifySubscribers, hst]
  rw [notifyLoop_id env (subKey f (channelOf m)) s hid fuel 0 st [] []
    hst (by omega)]
  simp

/-- **C9** (confirmed): a throwing subscriber callback is fully isolated by
the per-callback `try/catch`.  (i) In complete generality — whatever the
callbacks do to the service — the `throws` flags have no influence on the
resulting service state or on which callbacks get invoked: the run equals
the run of the same environment with no throwing, and no exception reaches
the `notifySubscribers` caller (the function is total).  (ii) For callbacks
that do not mutate the service, the call leaves the state unchanged (the
throwing callback is NOT removed from the subscriber set), invokes every
live subscriber in order (delivery continues past the throwers), and
catches-and-logs exactly the throwing callbacks. -/
theorem C9_subscriber_throw_isolation :
    (∀ (env : Nat → CbSpec) (fuel : Nat) (f : String) (m : Msg)
        (st : ServiceState),
      (notifySubscribers env fuel f m st).1
        = (notifySubscribers (clearThrows env) fuel f m st).1 ∧
      (notifySubscribers env fuel f m st).2.invoked
        = (notifySubscribers (clearThrows env) fuel f m st).2.invoked) ∧
    (∀ (env : Nat → CbSpec) (fuel : Nat) (f : String) (m : Msg)
        (st : ServiceState) (s : List (Nat × Bool)),
      (∀ cb : Nat, (env cb).act = fun x => x) →
      mGet st.subscribers (subKey f (channelOf m)) = some s →
      s.length ≤ fuel →
      notifySubscribers env fuel f m st
        = (st, ⟨aliveList s,
            (aliveList s).filter (fun cb => (env cb).throws), []⟩)) := by
  constructor
  · intro env fuel f m st
    simp only [notifySubscribers]
    cases hst : mGet st.subscribers (subKey f (channelOf m)) with
    | none => exact ⟨rfl, rfl⟩
    | some s =>
        have h := notifyLoop_clearThrows env (subKey f (channelOf m))
          fuel 0 st [] [] []
        exact ⟨h.1, h.2⟩
  · intro env fuel f m st s hid hst hf
    exact notifySubscribers_id env fuel f m st s hid hst hf

/-- An environment where only callback 1 throws (no state mutation). -/
def envThrow1 : Nat → CbSpec := fun cb => ⟨fun x => x, cb == 1⟩

/-- Witness for C9: callback 1 throws, callback 2 does not — both are
invoked, the exception is caught (callback 1 is logged), the state — and
with it the subscriber set — is unchanged. -/
theorem C9_witness :
    notifySubscribers envThrow1 10 "market" mBTC stTwoSubs
      = (stTwoSubs, ⟨[1, 2], [1], []⟩) := by
  have h := C9_subscriber_throw_isolation.2 envThrow1 10 "market" mBTC
    stTwoSubs [(1, true), (2, true)] (fun _ => rfl) (by decide) (by decide)
  rw [h]
  rfl

/-! ### Claim C10 -/

theorem mem_aliveList {s : List (Nat × Bool)} {cb : Nat}
    (h : cb ∈ aliveList s) : (cb, true) ∈ s := by
  simp only [aliveList, List.mem_map, List.mem_filter] at h
  obtain ⟨e, ⟨he, hb⟩, hfst⟩ := h
  cases e with
  | mk a b =>
      simp only at hb hfst
      subst hb
      subst hfst
      exact he

/-- **C10** (confirmed): a parsed message whose payload has no `channel`
field is routed under the key `(feed, 'default')` — with non-mutating
callbacks, exactly the live subscribers of channel `default` on that feed
are invoked (every invoked callback is a member of the `default`
subscriber set, so subscribers of every other channel receive nothing
from this message). -/
theorem C10_default_channel_routing :
    ∀ (env : Nat → CbSpec) (fuel : Nat) (f : String) (m : Msg)
      (st : ServiceState) (s : List (Nat × Bool)),
      m.channel = none →
      (∀ cb : Nat, (env cb).act = fun x => x) →
      mGet st.subscribers (subKey f "default") = some s →
      s.length ≤ fuel →
      notifySubscribers env fuel f m st
        = (st, ⟨aliveList s,
            (aliveList s).filter (fun cb => (env cb).throws), []⟩) ∧
      (∀ cb : Nat,
        cb ∈ (notifySubscribers env fuel f m st).2.invoked →
        (cb, true) ∈ s) := by
  intro env fuel f m st s hch hid hst hf
  have hkey : channelOf m = "default" := by simp [channelOf, hch]
  have hst' : mGet st.subscribers (subKey f (channelOf m)) = some s := by
    rw [hkey]; exact hst
  have h := notifySubscribers_id env fuel f m st s hid hst' hf
  refine ⟨h, ?_⟩
  intro cb hcb
  rw [h] at hcb
  exact mem_aliveList hcb

/-- A message carrying no `channel` field. -/
def mNoChan : Msg := ⟨none, some "price", none, 3⟩

/-- State with callback 7 subscribed to `(market, default)` and callback 9
subscribed to `(market, news)`. -/
def stC10 : ServiceState :=
  ⟨[], [("market:default", [(7, true)]), ("market:news", [(9, true)])],
   [], [], [], []⟩

/-- Witness for C10: the channel-less message reaches exactly the
`default` subscriber 7; subscriber 9 of channel `news` is not invoked. -/
theorem C10_witness :
    notifySubscribers envId 10 "market" mNoChan stC10
      = (stC10, ⟨[7], [], []⟩) ∧
    ¬ 9 ∈ (notifySubscribers envId 10 "market" mNoChan stC10).2.invoked := by
  have h := (C10_default_channel_routing envId 10 "market" mNoChan stC10
    [(7, true)] rfl (fun _ => rfl) (by decide) (by decide)).1
  constructor
  · rw [h]
    rfl
  · rw [h]
    decide

/-! ### Claim C4 -/

/-- A handler table where the `news` feed's handler throws on every
message (as `handleNewsMessage` does on a `breaking` item without a
`severity` field). -/
def handlersNews : String → Option (Msg → Bool) := fun f =>
  if f = "news" then some (fun _ => true) else none

/-- A state with an open `news` feed, one subscriber of
`(news, default)`, and an empty buffer. -/
def stC4 : ServiceState :=
  ⟨[("news", openFeed ⟨"news", 10000, 5⟩)],
   [("news:default", [(5, true)])], [], [], [], []⟩

/-- A well-formed `breaking` news message (channel-less). -/
def mBreaking : Msg := ⟨none, some "breaking", none, 7⟩

/-- **C4** (counterexample): the payload parses, but the feed handler
throws — and the message is then NEITHER appended to the buffer NOR
delivered to the `(news, default)` subscriber: the single `try/catch`
around the whole pipeline aborts the buffer and notify stages. -/
theorem C4_counterexample :
    parseRaw (Raw.wellFormed mBreaking) = some mBreaking ∧
    (handleMessage handlersNews envId 10 1234 "news"
      (Raw.wellFormed mBreaking) stC4).1.buffer = [] ∧
    (handleMessage handlersNews envId 10 1234 "news"
      (Raw.wellFormed mBreaking) stC4).2.invoked = [] ∧
    (handleMessage handlersNews envId 10 1234 "news"
      (Raw.wellFormed mBreaking) stC4).2.errors = ["news"] :=
  ⟨rfl, rfl, rfl, rfl⟩

/-- **C4** (amended theorem): when the feed handler throws on a parsed
message, the exception is caught and logged, but the message is NOT
buffered and subscribers are NOT notified; only the metadata updates that
precede the handler (`lastMessage`, `messageCount`, `status`) survive —
in particular the buffer and the subscriber table are left exactly as
they were. -/
theorem C4_amended :
    ∀ (handlers : String → Option (Msg → Bool)) (env : Nat → CbSpec)
      (fuel now : Nat) (f : String) (m : Msg) (st : ServiceState)
      (h : Msg → Bool),
      handlers f = some h → h m = true →
      handleMessage handlers env fuel now f (Raw.wellFormed m) st
        = (touchFeed f m st, ⟨[], [], [f]⟩) ∧
      (touchFeed f m st).buffer = st.buffer ∧
      (touchFeed f m st).subscribers = st.subscribers := by
  intro handlers env fuel now f m st h hh ht
  refine ⟨?_, ?_, ?_⟩
  · simp only [handleMessage, parseRaw, hh, ht, if_true]
  · cases hf : mGet st.feeds f <;> simp [touchFeed, hf]
  · cases hf : mGet st.feeds f <;> simp [touchFeed, hf]

/-- Witness for C4: the amended statement at the concrete throwing `news`
handler, message and state. -/
theorem C4_witness :
    handleMessage handlersNews envId 10 1234 "news"
      (Raw.wellFormed mBreaking) stC4
      = (touchFeed "news" mBreaking stC4, ⟨[], [], ["news"]⟩) ∧
    (touchFeed "news" mBreaking stC4).buffer = stC4.buffer :=
  ⟨(C4_amended handlersNews envId 10 1234 "news" mBreaking stC4
      (fun _ => true) rfl rfl).1,
   (C4_amended handlersNews envId 10 1234 "news" mBreaking stC4
      (fun _ => true) rfl rfl).2.1⟩

end RealTimeFeed
